import Mathlib

/-!
# Verification of the request-disposition core of keycloak-proxy (`misc.go`)

A shallow embedding of the Go source file `misc.go` of the
`softwaremotor/keycloak-proxy` repository, together with theorems settling
the specification claims about it.

Modelling conventions:

* A Go `string` is a sequence of bytes; we model it as `GoStr := List Nat`
  where each element is intended to be `< 256`.  The helper `gs` converts a
  Lean string literal to its UTF-8 byte list for readable concrete values.
* `base64.RawURLEncoding` (RFC 4648 URL-safe alphabet, no padding) is
  modelled by `b64encode` / `b64decode` over byte lists; as in the Go
  decoder, CR and LF bytes are ignored (removed before quantum decoding,
  see `b64decodeQuanta`) and leftover trailing bits are not checked.
* Go panics (the unchecked type assertion in `revokeProxy`, and the nil
  dereference it allows when a typed-nil `*RequestScope` is stored under
  the scope key) are modelled as the `Except.error` branch of an
  `Except GoPanic _` result.
* The `http.ResponseWriter` is modelled by the projection of its state this
  file observes: the committed status code (first `WriteHeader` wins, later
  calls are ignored, as in net/http), the `Location` header, and the body.
-/

/-- A Go string: a list of bytes (each intended `< 256`). -/
abbrev GoStr : Type := List Nat

/-- UTF-8 encoding of one code point, as a list of bytes. -/
def utf8Bytes (c : Nat) : List Nat :=
  if c < 128 then [c]
  else if c < 2048 then [192 + c / 64, 128 + c % 64]
  else if c < 65536 then [224 + c / 4096, 128 + c / 64 % 64, 128 + c % 64]
  else [240 + c / 262144, 128 + c / 4096 % 64, 128 + c / 64 % 64, 128 + c % 64]

def gsAux : List Char → GoStr
  | [] => []
  | c :: cs => utf8Bytes c.toNat ++ gsAux cs

/-- Convert a Lean string literal to its UTF-8 byte list, the `GoStr` model
of the corresponding Go string literal. -/
def gs (s : String) : GoStr := gsAux s.data

/-- `const PathParamPrefix = ":path:"` from `misc.go`. -/
def PathParamPrefix : GoStr := gs ":path:"

/-- Errors surfaced by the modelled Go code: the base64 decoder's
`CorruptInputError`, a template render failure, and a token parse
failure. -/
inductive GoErr where
  | corruptInput : GoErr
  | templateError : GoErr
  | tokenParseError : GoErr
deriving DecidableEq

/-- Encode one 6-bit value as its RFC 4648 URL-safe base64 alphabet byte
(`A`-`Z`, `a`-`z`, `0`-`9`, `-`, `_`). -/
def b64encChar (v : Nat) : Nat :=
  if v < 26 then 65 + v
  else if v < 52 then 97 + (v - 26)
  else if v < 62 then 48 + (v - 52)
  else if v = 62 then 45
  else 95

/-- Decode one URL-safe base64 alphabet byte back to its 6-bit value;
`none` for a byte outside the alphabet. -/
def b64decChar (c : Nat) : Option Nat :=
  if 65 ≤ c ∧ c ≤ 90 then some (c - 65)
  else if 97 ≤ c ∧ c ≤ 122 then some (26 + (c - 97))
  else if 48 ≤ c ∧ c ≤ 57 then some (52 + (c - 48))
  else if c = 45 then some 62
  else if c = 95 then some 63
  else none

/-- `base64.RawURLEncoding.EncodeToString`: unpadded URL-safe base64 of a
byte list.  Three input bytes become four alphabet bytes; a final group of
one or two bytes becomes two or three alphabet bytes and no padding. -/
def b64encode : GoStr → GoStr
  | [] => []
  | [b0] => [b64encChar (b0 / 4), b64encChar (b0 % 4 * 16)]
  | [b0, b1] =>
      [b64encChar (b0 / 4), b64encChar (b0 % 4 * 16 + b1 / 16),
       b64encChar (b1 % 16 * 4)]
  | b0 :: b1 :: b2 :: rest =>
      b64encChar (b0 / 4) :: b64encChar (b0 % 4 * 16 + b1 / 16) ::
      b64encChar (b1 % 16 * 4 + b2 / 64) :: b64encChar (b2 % 64) ::
      b64encode rest

/-- The quantum decoder of `base64.RawURLEncoding` (run after CR/LF
removal, see `b64decodeQuanta`'s wrapper `b64decode`).  Fails with
`corruptInput` on a byte outside the alphabet or on a final quantum of a
single alphabet byte (length ≡ 1 mod 4); like the non-strict Go decoder,
leftover trailing bits are ignored rather than checked. -/
def b64decodeQuanta : GoStr → Except GoErr GoStr
  | [] => .ok []
  | [_] => .error .corruptInput
  | [c0, c1] =>
      match b64decChar c0, b64decChar c1 with
      | some s0, some s1 => .ok [s0 * 4 + s1 / 16]
      | _, _ => .error .corruptInput
  | [c0, c1, c2] =>
      match b64decChar c0, b64decChar c1, b64decChar c2 with
      | some s0, some s1, some s2 =>
          .ok [s0 * 4 + s1 / 16, s1 % 16 * 16 + s2 / 4]
      | _, _, _ => .error .corruptInput
  | c0 :: c1 :: c2 :: c3 :: rest =>
      match b64decChar c0, b64decChar c1, b64decChar c2, b64decChar c3 with
      | some s0, some s1, some s2, some s3 =>
          match b64decodeQuanta rest with
          | .ok tl =>
              .ok ((s0 * 4 + s1 / 16) :: (s1 % 16 * 16 + s2 / 4) ::
                   (s2 % 4 * 64 + s3) :: tl)
          | .error e => .error e
      | _, _, _, _ => .error .corruptInput

/-- `base64.RawURLEncoding.DecodeString`: the Go decoder ignores CR and LF
bytes wherever they occur, then decodes the remaining bytes quantum by
quantum. -/
def b64decode (s : GoStr) : Except GoErr GoStr :=
  b64decodeQuanta (s.filter (fun c => !(c == 13 || c == 10)))

theorem b64decChar_encChar : ∀ v < 64, b64decChar (b64encChar v) = some v := by
  decide

theorem b64encChar_lt (v : Nat) : b64encChar v < 256 := by
  unfold b64encChar
  repeat' split
  all_goals omega

/-- Round trip of the quantum codec on byte lists. -/
theorem b64quanta_roundtrip (bs : GoStr) (h : ∀ b ∈ bs, b < 256) :
    b64decodeQuanta (b64encode bs) = .ok bs := by
  induction bs using b64encode.induct with
  | case1 => rfl
  | case2 b0 =>
      have h0 : b0 < 256 := h b0 (by simp)
      have e0 : b0 / 4 * 4 + b0 % 4 * 16 / 16 = b0 := by omega
      simp only [b64encode, b64decodeQuanta,
        b64decChar_encChar _ (show b0 / 4 < 64 by omega),
        b64decChar_encChar _ (show b0 % 4 * 16 < 64 by omega), e0]
  | case3 b0 b1 =>
      have h0 : b0 < 256 := h b0 (by simp)
      have h1 : b1 < 256 := h b1 (by simp)
      have e0 : b0 / 4 * 4 + (b0 % 4 * 16 + b1 / 16) / 16 = b0 := by omega
      have e1 : (b0 % 4 * 16 + b1 / 16) % 16 * 16 + b1 % 16 * 4 / 4 = b1 := by
        omega
      simp only [b64encode, b64decodeQuanta,
        b64decChar_encChar _ (show b0 / 4 < 64 by omega),
        b64decChar_encChar _ (show b0 % 4 * 16 + b1 / 16 < 64 by omega),
        b64decChar_encChar _ (show b1 % 16 * 4 < 64 by omega), e0, e1]
  | case4 b0 b1 b2 rest ih =>
      have h0 : b0 < 256 := h b0 (by simp)
      have h1 : b1 < 256 := h b1 (by simp)
      have h2 : b2 < 256 := h b2 (by simp)
      have hrest : ∀ b ∈ rest, b < 256 := fun b hb => h b (by simp [hb])
      have e0 : b0 / 4 * 4 + (b0 % 4 * 16 + b1 / 16) / 16 = b0 := by omega
      have e1 : (b0 % 4 * 16 + b1 / 16) % 16 * 16 +
          (b1 % 16 * 4 + b2 / 64) / 4 = b1 := by omega
      have e2 : (b1 % 16 * 4 + b2 / 64) % 4 * 64 + b2 % 64 = b2 := by omega
      simp only [b64encode, b64decodeQuanta,
        b64decChar_encChar _ (show b0 / 4 < 64 by omega),
        b64decChar_encChar _ (show b0 % 4 * 16 + b1 / 16 < 64 by omega),
        b64decChar_encChar _ (show b1 % 16 * 4 + b2 / 64 < 64 by omega),
        b64decChar_encChar _ (show b2 % 64 < 64 by omega),
        ih hrest, e0, e1, e2]

theorem b64encChar_ge (v : Nat) : 45 ≤ b64encChar v := by
  unfold b64encChar
  repeat' split
  all_goals omega

theorem b64encode_mem_ge (bs : GoStr) : ∀ a ∈ b64encode bs, 45 ≤ a := by
  induction bs using b64encode.induct with
  | case1 => intro a ha; cases ha
  | case2 b0 =>
      intro a ha
      simp only [b64encode, List.mem_cons, List.not_mem_nil, or_false] at ha
      rcases ha with rfl | rfl <;> exact b64encChar_ge _
  | case3 b0 b1 =>
      intro a ha
      simp only [b64encode, List.mem_cons, List.not_mem_nil, or_false] at ha
      rcases ha with rfl | rfl | rfl <;> exact b64encChar_ge _
  | case4 b0 b1 b2 rest ih =>
      intro a ha
      simp only [b64encode, List.mem_cons] at ha
      rcases ha with rfl | rfl | rfl | rfl | ha
      · exact b64encChar_ge _
      · exact b64encChar_ge _
      · exact b64encChar_ge _
      · exact b64encChar_ge _
      · exact ih a ha

/-- Encoder output never contains CR or LF, so the decoder's CR/LF removal
is the identity on it. -/
theorem b64encode_filter (bs : GoStr) :
    (b64encode bs).filter (fun c => !(c == 13 || c == 10)) = b64encode bs := by
  apply List.filter_eq_self.mpr
  intro a ha
  have h45 := b64encode_mem_ge bs a ha
  have h13 : a ≠ 13 := by omega
  have h10 : a ≠ 10 := by omega
  simp [h13, h10]

/-- Round trip of the full decoder (CR/LF removal included) against the
encoder. -/
theorem b64_roundtrip (bs : GoStr) (h : ∀ b ∈ bs, b < 256) :
    b64decode (b64encode bs) = .ok bs := by
  unfold b64decode
  rw [b64encode_filter]
  exact b64quanta_roundtrip bs h

/-- Go `strings.TrimPrefix s pre`: drop `pre` from the front of `s` when `s`
starts with it, otherwise return `s` unchanged. -/
def stringsTrimPre (s pre : GoStr) : GoStr :=
  if pre.isPrefixOf s then s.drop pre.length else s

/-- `generateStateParam` from `misc.go`: prepend `PathParamPrefix` to the
URI and base64-encode the bytes (the Go receiver `r` is unused). -/
def generateStateParam (uri : GoStr) : GoStr :=
  b64encode (PathParamPrefix ++ uri)

/-- `pathFromStateParam` from `misc.go`: base64-decode the state value,
propagating a decode error, and trim the `PathParamPrefix` marker if present
(the Go receiver `r` is unused).  The Go pair `(string, error)` is modelled
as `Except`. -/
def pathFromStateParam (state : GoStr) : Except GoErr GoStr :=
  match b64decode state with
  | .error e => .error e
  | .ok decoded => .ok (stringsTrimPre decoded PathParamPrefix)

/-- A byte string is valid unpadded URL-safe base64 text: every byte is in
the URL-safe alphabet and the length is not ≡ 1 mod 4. -/
def validRawURLBase64 (s : GoStr) : Prop :=
  (∀ c ∈ s, (b64decChar c).isSome = true) ∧ s.length % 4 ≠ 1

theorem isPrefixOf_append_self (pre p : GoStr) :
    pre.isPrefixOf (pre ++ p) = true := by
  induction pre with
  | nil => simp [List.isPrefixOf]
  | cons a as ih => simp [List.isPrefixOf, ih]

theorem stringsTrimPre_append (pre p : GoStr) :
    stringsTrimPre (pre ++ p) pre = p := by
  unfold stringsTrimPre
  rw [if_pos (isPrefixOf_append_self pre p)]
  exact List.drop_left pre p

theorem pathParamPrefixBytes : PathParamPrefix = [58, 112, 97, 116, 104, 58] := by
  decide

/-- C1: the state-token codec round-trips every byte string, the
`PathParamPrefix` marker included. -/
theorem c1_state_param_roundtrip (p : GoStr) (h : ∀ b ∈ p, b < 256) :
    pathFromStateParam (generateStateParam p) = .ok p := by
  have hall : ∀ b ∈ PathParamPrefix ++ p, b < 256 := by
    intro b hb
    rcases List.mem_append.mp hb with hpre | hp
    · rw [pathParamPrefixBytes] at hpre
      simp only [List.mem_cons, List.not_mem_nil, or_false] at hpre
      rcases hpre with rfl | rfl | rfl | rfl | rfl | rfl <;> omega
    · exact h b hp
  unfold generateStateParam pathFromStateParam
  simp only [b64_roundtrip (PathParamPrefix ++ p) hall, stringsTrimPre_append]

/-- Witness for C1 at the concrete unicode, query-bearing path
`/sécret?x=1`. -/
theorem c1_witness :
    (∀ b ∈ gs "/sécret?x=1", b < 256) ∧
      pathFromStateParam (generateStateParam (gs "/sécret?x=1")) =
        .ok (gs "/sécret?x=1") :=
  ⟨by decide, c1_state_param_roundtrip (gs "/sécret?x=1") (by decide)⟩

/-- The base64 decoder succeeds exactly on valid unpadded URL-safe base64
byte strings. -/
theorem b64decodeQuanta_ok_iff (s : GoStr) :
    (∃ ds, b64decodeQuanta s = .ok ds) ↔ validRawURLBase64 s := by
  induction s using b64decodeQuanta.induct with
  | case1 =>
      simp [b64decodeQuanta, validRawURLBase64]
  | case2 c =>
      simp [b64decodeQuanta, validRawURLBase64]
  | case3 c0 c1 s0 s1 h1 h0 =>
      simp [b64decodeQuanta, validRawURLBase64, h0, h1]
  | case4 c0 c1 hF =>
      cases e0 : b64decChar c0 with
      | none => simp [b64decodeQuanta, validRawURLBase64, e0]
      | some s0 =>
          cases e1 : b64decChar c1 with
          | none => simp [b64decodeQuanta, validRawURLBase64, e0, e1]
          | some s1 => exact (hF s0 s1 e0 e1).elim
  | case5 c0 c1 c2 s0 s1 s2 h2 h1 h0 =>
      simp [b64decodeQuanta, validRawURLBase64, h0, h1, h2]
  | case6 c0 c1 c2 hF =>
      cases e0 : b64decChar c0 <;> cases e1 : b64decChar c1 <;>
        cases e2 : b64decChar c2
      case some.some.some s0 s1 s2 => exact (hF s0 s1 s2 e0 e1 e2).elim
      all_goals simp [b64decodeQuanta, validRawURLBase64, e0, e1, e2]
  | case7 c0 c1 c2 c3 rest s0 s1 s2 s3 h3 h2 h1 h0 tl htl ih =>
      have hvr : validRawURLBase64 rest := ih.mp ⟨tl, htl⟩
      apply iff_of_true
      · exact ⟨(s0 * 4 + s1 / 16) :: (s1 % 16 * 16 + s2 / 4) ::
            (s2 % 4 * 64 + s3) :: tl, by simp [b64decodeQuanta, h0, h1, h2, h3, htl]⟩
      · refine ⟨?_, ?_⟩
        · intro c hc
          simp only [List.mem_cons] at hc
          rcases hc with rfl | rfl | rfl | rfl | hc
          · simp [h0]
          · simp [h1]
          · simp [h2]
          · simp [h3]
          · exact hvr.1 c hc
        · have := hvr.2
          simp only [List.length_cons]
          omega
  | case8 c0 c1 c2 c3 rest s0 s1 s2 s3 h3 h2 h1 h0 e herr ih =>
      apply iff_of_false
      · rintro ⟨ds, hds⟩
        simp [b64decodeQuanta, h0, h1, h2, h3, herr] at hds
      · intro hv
        have hvr : validRawURLBase64 rest := by
          refine ⟨fun c hc => hv.1 c (by simp [hc]), ?_⟩
          have := hv.2
          simp only [List.length_cons] at this
          omega
        rcases ih.mpr hvr with ⟨tl, htl⟩
        rw [htl] at herr
        cases herr
  | case9 c0 c1 c2 c3 rest hF =>
      cases e0 : b64decChar c0 <;> cases e1 : b64decChar c1 <;>
        cases e2 : b64decChar c2 <;> cases e3 : b64decChar c3
      case some.some.some.some s0 s1 s2 s3 =>
        exact (hF s0 s1 s2 s3 e0 e1 e2 e3).elim
      all_goals simp [b64decodeQuanta, validRawURLBase64, e0, e1, e2, e3]

/-- C6 (amended): `pathFromStateParam` fails exactly on inputs whose bytes,
after removing the CR and LF bytes the Go decoder ignores, are not valid
unpadded URL-safe base64 (it is a total function, hence never panics), and
on a successful decode whose bytes do not start with `PathParamPrefix` it
returns the decoded bytes unchanged without error. -/
theorem c6_decode_error_law (s : GoStr) :
    ((∃ e, pathFromStateParam s = .error e) ↔
      ¬ validRawURLBase64 (s.filter (fun c => !(c == 13 || c == 10)))) ∧
    (∀ ds, b64decode s = .ok ds → PathParamPrefix.isPrefixOf ds = false →
      pathFromStateParam s = .ok ds) := by
  constructor
  · constructor
    · rintro ⟨e, he⟩ hv
      rcases (b64decodeQuanta_ok_iff
          (s.filter (fun c => !(c == 13 || c == 10)))).mpr hv with ⟨ds, hds⟩
      unfold pathFromStateParam b64decode at he
      rw [hds] at he
      cases he
    · intro hv
      cases hd : b64decode s with
      | ok ds =>
          have hd2 : b64decodeQuanta
              (s.filter (fun c => !(c == 13 || c == 10))) = .ok ds := hd
          exact absurd ((b64decodeQuanta_ok_iff _).mp ⟨ds, hd2⟩) hv
      | error e =>
          refine ⟨e, ?_⟩
          unfold pathFromStateParam
          rw [hd]
  · intro ds hds hnp
    unfold pathFromStateParam
    rw [hds]
    simp [stringsTrimPre, hnp]

/-- Counterexample to C6 as stated: the Go decoder ignores the trailing
newline, so `pathFromStateParam` succeeds on the token `"QUJD"` followed by
a line feed and returns `"ABC"`, although that input is not valid unpadded
URL-safe base64 text (it contains a byte outside the alphabet and its
length is ≡ 1 mod 4). -/
theorem c6_counterexample :
    pathFromStateParam (gs "QUJD" ++ [10]) = .ok (gs "ABC") ∧
    ¬ validRawURLBase64 (gs "QUJD" ++ [10]) :=
  ⟨rfl, fun h => h.2 (by decide)⟩

/-- Witness for the amended C6 at the concrete token `"AAAA"`, which
decodes to three zero bytes that do not carry the `PathParamPrefix`
marker. -/
theorem c6_witness :
    pathFromStateParam (gs "AAAA") = .ok [0, 0, 0] :=
  (c6_decode_error_law (gs "AAAA")).2 [0, 0, 0] rfl (by decide)

/-- A Go panic: the unchecked type assertion `sc.(*RequestScope)` in
`revokeProxy` failing on a value of another type, or the nil-pointer
dereference at `scope.AccessDenied = true` when the assertion succeeds on
a typed-nil `*RequestScope`. -/
inductive GoPanic where
  | typeAssertion : GoPanic
  | nilDereference : GoPanic
deriving DecidableEq

/-- The per-request scope carried in the request context; the fragment in
`misc.go` reads and writes its `AccessDenied` flag. -/
structure RequestScope where
  AccessDenied : Bool
deriving DecidableEq

/-- The dynamic value stored under `contextScopeName` in the request
context: Go's `interface{}` is a non-nil `*RequestScope` pointing at a
scope, a typed-nil `*RequestScope` (which passes the type assertion in
`revokeProxy` and then panics on dereference), or a value of some other
type (which the type assertion rejects). -/
inductive CtxVal where
  | scope (s : RequestScope)
  | nilScope
  | other
deriving DecidableEq

/-- The request context, projected to the one key the fragment touches:
`contextScopeName` maps to `none` (never set) or to a stored value. -/
structure Context where
  val : Option CtxVal
deriving DecidableEq

/-- An inbound HTTP request, projected to what `misc.go` reads: its context
and `req.URL.RequestURI()` (path plus query). -/
structure Request where
  ctx : Context
  requestURI : GoStr
deriving DecidableEq

/-- The `http.ResponseWriter`, projected to the state this fragment
observes: the committed status code, the `Location` header, and the body
chunks written.  As in net/http, only the first `WriteHeader` commits a
status; later calls are ignored. -/
structure ResponseWriter where
  status : Option Nat
  location : Option GoStr
  body : List GoStr
deriving DecidableEq

/-- `w.WriteHeader(code)`: commit `code` unless a status was already
committed. -/
def ResponseWriter.writeHeader (w : ResponseWriter) (code : Nat) :
    ResponseWriter :=
  if w.status.isSome then w else { w with status := some code }

/-- `http.Redirect(w, req, url, code)`: set the `Location` header to the
URL and commit the status code.  The stdlib's cleanup of relative URLs and
its HTML body for GET requests are not modelled. -/
def httpRedirect (w : ResponseWriter) (req : Request) (url : GoStr)
    (code : Nat) : ResponseWriter :=
  ResponseWriter.writeHeader { w with location := some url } code

/-- The configuration fields `misc.go` reads (§6 of the spec);
`WithOAuthURI` is the repository's URL builder, kept abstract. -/
structure Config where
  NoRedirects : Bool
  SkipTokenVerification : Bool
  AccessTokenDuration : Int
  ForbiddenPage : GoStr
  Tags : List (GoStr × GoStr)
  WithOAuthURI : GoStr → GoStr

/-- Modelled from the spec: `hasCustomForbiddenPage()` is defined outside
`misc.go`; §6 describes it as the presence predicate for the optional
`ForbiddenPage` template path. -/
def Config.hasCustomForbiddenPage (c : Config) : Bool :=
  !c.ForbiddenPage.isEmpty

/-- Modelled from the spec: the constant `authorizationURL` is defined
outside `misc.go`; §6/§8 give the authorization endpoint as
`<oauth-base>/authorization`, so the relative path is `/authorization`. -/
def authorizationURL : GoStr := gs "/authorization"

/-- The proxy: its configuration plus its template renderer `r.Render`
(defined outside `misc.go`), kept abstract as a function from template name
and tags to rendered bytes or a render error. -/
structure oauthProxy where
  config : Config
  render : GoStr → List (GoStr × GoStr) → Except GoErr GoStr

/-- Go `path.Base`: strip trailing slashes and keep the last path element;
`""` gives `"."` and an all-slash path gives `"/"`. -/
def pathBase (p : GoStr) : GoStr :=
  if p.isEmpty then gs "."
  else
    let q := (p.reverse.dropWhile (fun c => c == 47)).reverse
    let b := (q.reverse.takeWhile (fun c => c != 47)).reverse
    if b.isEmpty then gs "/" else b

/-- `revokeProxy` from `misc.go`: read the scope stored under
`contextScopeName` (synthesizing one when the key is absent), set
`AccessDenied = true`, and return the updated context.  The unchecked type
assertion on a value of another type is the `typeAssertion` panic; a
typed-nil `*RequestScope` passes the assertion (the interface is not nil)
and `scope.AccessDenied = true` is then the `nilDereference` panic. -/
def revokeProxy (r : oauthProxy) (w : ResponseWriter) (req : Request) :
    Except GoPanic Context :=
  match req.ctx.val with
  | none => .ok ⟨some (.scope ⟨true⟩)⟩
  | some (.scope s) => .ok ⟨some (.scope { s with AccessDenied := true })⟩
  | some .nilScope => .error .nilDereference
  | some .other => .error .typeAssertion

/-- The scope slot is one `revokeProxy` survives: absent, or a non-nil
`*RequestScope`. -/
def scopeOk : Option CtxVal → Bool
  | none => true
  | some (.scope _) => true
  | some .nilScope => false
  | some .other => false

/-- `accessForbidden` from `misc.go`: write 403, render the custom
forbidden page when configured (a render failure is only logged), finish
with `revokeProxy`. -/
def accessForbidden (r : oauthProxy) (w : ResponseWriter) (req : Request) :
    Except GoPanic (ResponseWriter × Context) :=
  let w1 := w.writeHeader 403
  let w2 :=
    if r.config.hasCustomForbiddenPage then
      match r.render (pathBase r.config.ForbiddenPage) r.config.Tags with
      | .ok page => { w1 with body := w1.body ++ [page] }
      | .error _ => w1
    else w1
  (revokeProxy r w2 req).map (fun c => (w2, c))

/-- `redirectToURL` from `misc.go`: temporary redirect (307) to `url`,
then finish with `revokeProxy`. -/
def redirectToURL (r : oauthProxy) (url : GoStr) (w : ResponseWriter)
    (req : Request) : Except GoPanic (ResponseWriter × Context) :=
  let w1 := httpRedirect w req url 307
  (revokeProxy r w1 req).map (fun c => (w1, c))

/-- `redirectToAuthorization` from `misc.go`: 401 when redirects are
disabled; otherwise build the state query, refuse with 403 when token
verification is globally skipped, else redirect (307) to the authorization
endpoint; every branch finishes with `revokeProxy`. -/
def redirectToAuthorization (r : oauthProxy) (w : ResponseWriter)
    (req : Request) : Except GoPanic (ResponseWriter × Context) :=
  if r.config.NoRedirects then
    let w1 := w.writeHeader 401
    (revokeProxy r w1 req).map (fun c => (w1, c))
  else
    let authQuery := gs "?state=" ++ generateStateParam req.requestURI
    if r.config.SkipTokenVerification then
      let w1 := w.writeHeader 403
      (revokeProxy r w1 req).map (fun c => (w1, c))
    else
      match redirectToURL r (r.config.WithOAuthURI (authorizationURL ++ authQuery)) w req with
      | .error p => .error p
      | .ok (w1, _) => (revokeProxy r w1 req).map (fun c => (w1, c))

/-- An opaque `jose.JWT` value (its contents are not read by this
fragment). -/
structure JWT where
  raw : GoStr
deriving DecidableEq

/-- The decoded identity claims used by `getAccessCookieExpiration`:
`ExpiresAt` is a `time.Time` instant, modelled as an integer clock value so
that `time.Until ExpiresAt = ExpiresAt - now`. -/
structure Identity where
  ExpiresAt : Int
deriving DecidableEq

/-- `getAccessCookieExpiration` from `misc.go`: default to the configured
`AccessTokenDuration`; if `parseToken` (defined outside `misc.go`, passed
here as an oracle) succeeds on the refresh token, use the time remaining
until the identity's `ExpiresAt` instead.  The `token` argument is unused,
as in the source. -/
def getAccessCookieExpiration (r : oauthProxy)
    (parseToken : GoStr → Except GoErr (JWT × Identity)) (now : Int)
    (token : JWT) (refresh : GoStr) : Int :=
  let duration := r.config.AccessTokenDuration
  match parseToken refresh with
  | .ok x => x.2.ExpiresAt - now
  | .error _ => duration

/-- A cookie as read back from the request's `Cookie` header: `Cookies()`
populates only name and value, and `AddCookie` serializes only name and
value. -/
structure Cookie where
  Name : GoStr
  Value : GoStr
deriving DecidableEq

/-- The inner loop of `filterCookies`: does the cookie name match any
filter entry (first match breaks)? -/
def cookieInFilter (name : GoStr) : List GoStr → Bool
  | [] => false
  | n :: ns => if name == n then true else cookieInFilter name ns

/-- The rebuild loop of `filterCookies`: each cookie is re-added, with its
value replaced by the literal `"censored"` when its name matches the
filter. -/
def filterCookiesLoop : List Cookie → List GoStr → List Cookie
  | [], _ => []
  | x :: xs, filter =>
      (if cookieInFilter x.Name filter
       then { Name := x.Name, Value := gs "censored" }
       else x) :: filterCookiesLoop xs filter

/-- `filterCookies` from `misc.go`: empty the request's cookie header,
re-add every cookie in order (censoring the filtered ones), and return
`nil`.  Modelled as the rebuilt cookie list paired with the (always-`none`)
error. -/
def filterCookies (cookies : List Cookie) (filter : List GoStr) :
    List Cookie × Option GoErr :=
  (filterCookiesLoop cookies filter, none)

/-- The `AccessDenied` flag of the scope carried by a context (`false` when
no scope is stored). -/
def Context.denied (c : Context) : Bool :=
  match c.val with
  | some (.scope s) => s.AccessDenied
  | _ => false

theorem revokeProxy_denied {r : oauthProxy} {w : ResponseWriter}
    {req : Request} {c : Context} (h : revokeProxy r w req = .ok c) :
    c.denied = true := by
  unfold revokeProxy at h
  cases hv : req.ctx.val with
  | none => rw [hv] at h; cases h; rfl
  | some v =>
      cases v with
      | scope s => rw [hv] at h; cases h; rfl
      | nilScope => rw [hv] at h; cases h
      | other => rw [hv] at h; cases h

theorem revokeProxy_ok {req : Request} (r : oauthProxy) (w : ResponseWriter)
    (hctx : scopeOk req.ctx.val = true) :
    ∃ c, revokeProxy r w req = .ok c := by
  unfold revokeProxy
  cases hv : req.ctx.val with
  | none => exact ⟨_, rfl⟩
  | some v =>
      cases v with
      | scope s => exact ⟨_, rfl⟩
      | nilScope => rw [hv] at hctx; simp [scopeOk] at hctx
      | other => rw [hv] at hctx; simp [scopeOk] at hctx

theorem revokeMap_ok {r : oauthProxy} {w1 : ResponseWriter} {req : Request}
    {w' : ResponseWriter} {c : Context}
    (h : (revokeProxy r w1 req).map (fun c0 => (w1, c0)) = .ok (w', c)) :
    revokeProxy r w1 req = .ok c ∧ w' = w1 := by
  cases hrv : revokeProxy r w1 req with
  | error p => rw [hrv] at h; simp [Except.map] at h
  | ok c0 =>
      rw [hrv] at h
      simp only [Except.map, Except.ok.injEq, Prod.mk.injEq] at h
      refine ⟨?_, h.1.symm⟩
      rw [← h.2]

theorem writeHeader_none {w : ResponseWriter} (hw : w.status = none)
    (code : Nat) : w.writeHeader code = { w with status := some code } := by
  unfold ResponseWriter.writeHeader
  rw [hw]
  rfl

/-- C2: with `SkipTokenVerification = true` and `NoRedirects = false`,
`redirectToAuthorization` writes 403, leaves the `Location` header
untouched, and returns an access-denied context. -/
theorem c2_skip_verification_forbidden (r : oauthProxy) (w : ResponseWriter)
    (req : Request)
    (hskip : r.config.SkipTokenVerification = true)
    (hnr : r.config.NoRedirects = false)
    (hw : w.status = none)
    (hctx : scopeOk req.ctx.val = true) :
    ∃ w' c, redirectToAuthorization r w req = .ok (w', c) ∧
      w'.status = some 403 ∧ w'.location = w.location ∧ c.denied = true := by
  obtain ⟨c, hc⟩ := revokeProxy_ok r { w with status := some 403 } hctx
  refine ⟨{ w with status := some 403 }, c, ?_, rfl, rfl,
    revokeProxy_denied hc⟩
  unfold redirectToAuthorization
  simp [hnr, hskip, writeHeader_none hw 403, hc, Except.map]

/-- C4: with `NoRedirects = true`, `redirectToAuthorization` writes 401,
leaves the `Location` header untouched, and returns an access-denied
context. -/
theorem c4_noredirects_unauthorized (r : oauthProxy) (w : ResponseWriter)
    (req : Request)
    (hnr : r.config.NoRedirects = true)
    (hw : w.status = none)
    (hctx : scopeOk req.ctx.val = true) :
    ∃ w' c, redirectToAuthorization r w req = .ok (w', c) ∧
      w'.status = some 401 ∧ w'.location = w.location ∧ c.denied = true := by
  obtain ⟨c, hc⟩ := revokeProxy_ok r { w with status := some 401 } hctx
  refine ⟨{ w with status := some 401 }, c, ?_, rfl, rfl,
    revokeProxy_denied hc⟩
  unfold redirectToAuthorization
  simp [hnr, writeHeader_none hw 401, hc, Except.map]

/-- C5: with redirects enabled and verification not skipped,
`redirectToAuthorization` writes 307 with the `Location` header set to the
configured authorization endpoint carrying the encoded state of the
request URI, and returns an access-denied context. -/
theorem c5_normal_redirect (r : oauthProxy) (w : ResponseWriter)
    (req : Request)
    (hnr : r.config.NoRedirects = false)
    (hskip : r.config.SkipTokenVerification = false)
    (hw : w.status = none)
    (hctx : scopeOk req.ctx.val = true) :
    ∃ w' c, redirectToAuthorization r w req = .ok (w', c) ∧
      w'.status = some 307 ∧
      w'.location = some (r.config.WithOAuthURI (authorizationURL ++
        (gs "?state=" ++ generateStateParam req.requestURI))) ∧
      c.denied = true := by
  obtain ⟨c, hc⟩ := revokeProxy_ok r
    { w with
      status := some 307
      location := some (r.config.WithOAuthURI (authorizationURL ++
        (gs "?state=" ++ generateStateParam req.requestURI))) } hctx
  refine ⟨{ w with
      status := some 307
      location := some (r.config.WithOAuthURI (authorizationURL ++
        (gs "?state=" ++ generateStateParam req.requestURI))) }, c, ?_, rfl,
    rfl, revokeProxy_denied hc⟩
  have hred : redirectToURL r (r.config.WithOAuthURI (authorizationURL ++
      (gs "?state=" ++ generateStateParam req.requestURI))) w req =
      .ok ({ w with
        status := some 307
        location := some (r.config.WithOAuthURI (authorizationURL ++
          (gs "?state=" ++ generateStateParam req.requestURI))) }, c) := by
    unfold redirectToURL httpRedirect
    rw [writeHeader_none (show ({ w with
      location := some (r.config.WithOAuthURI (authorizationURL ++
        (gs "?state=" ++ generateStateParam req.requestURI))) } :
      ResponseWriter).status = none from hw)]
    dsimp only []
    rw [hc]
    rfl
  unfold redirectToAuthorization
  simp only [hnr, hskip, Bool.false_eq_true, if_false]
  rw [hred]
  dsimp only []
  rw [hc]
  rfl

/-- C10: with both `NoRedirects` and `SkipTokenVerification` set,
`redirectToAuthorization` answers 401 (not 403): the no-redirect branch
takes precedence, and the result does not depend on the request URI (no
state token is computed on that path). -/
theorem c10_noredirects_precedence (r : oauthProxy) (w : ResponseWriter)
    (req : Request)
    (hnr : r.config.NoRedirects = true)
    (hskip : r.config.SkipTokenVerification = true)
    (hw : w.status = none)
    (hctx : scopeOk req.ctx.val = true) :
    (∃ w' c, redirectToAuthorization r w req = .ok (w', c) ∧
      w'.status = some 401 ∧ w'.status ≠ some 403) ∧
    (∀ u : GoStr, redirectToAuthorization r w { req with requestURI := u } =
      redirectToAuthorization r w req) := by
  constructor
  · obtain ⟨c, hc⟩ := revokeProxy_ok r { w with status := some 401 } hctx
    refine ⟨{ w with status := some 401 }, c, ?_, rfl, by simp⟩
    unfold redirectToAuthorization
    simp [hnr, writeHeader_none hw 401, hc, Except.map]
  · intro u
    unfold redirectToAuthorization revokeProxy
    simp [hnr]

/-- C3: every disposition operation, whenever it returns (rather than
panicking on a foreign scope value), returns a context whose scope has
`AccessDenied = true`; in particular no operation ever turns the flag back
off. -/
theorem c3_dispositions_deny :
    (∀ (r : oauthProxy) (w : ResponseWriter) (req : Request) (c : Context),
      revokeProxy r w req = .ok c → c.denied = true) ∧
    (∀ (r : oauthProxy) (w : ResponseWriter) (req : Request)
      (w' : ResponseWriter) (c : Context),
      accessForbidden r w req = .ok (w', c) → c.denied = true) ∧
    (∀ (r : oauthProxy) (url : GoStr) (w : ResponseWriter) (req : Request)
      (w' : ResponseWriter) (c : Context),
      redirectToURL r url w req = .ok (w', c) → c.denied = true) ∧
    (∀ (r : oauthProxy) (w : ResponseWriter) (req : Request)
      (w' : ResponseWriter) (c : Context),
      redirectToAuthorization r w req = .ok (w', c) → c.denied = true) := by
  refine ⟨?_, ?_, ?_, ?_⟩
  · intro r w req c h
    exact revokeProxy_denied h
  · intro r w req w' c h
    unfold accessForbidden at h
    exact revokeProxy_denied (revokeMap_ok h).1
  · intro r url w req w' c h
    unfold redirectToURL at h
    exact revokeProxy_denied (revokeMap_ok h).1
  · intro r w req w' c h
    unfold redirectToAuthorization at h
    split at h
    · exact revokeProxy_denied (revokeMap_ok h).1
    · split at h
      · exact revokeProxy_denied (revokeMap_ok h).1
      · simp only [] at h
        split at h
        · cases h
        · exact revokeProxy_denied (revokeMap_ok h).1

theorem revokeProxy_ok_all {req : Request} (r : oauthProxy)
    (hctx : scopeOk req.ctx.val = true) :
    ∃ c, ∀ w : ResponseWriter, revokeProxy r w req = .ok c := by
  unfold revokeProxy
  cases hv : req.ctx.val with
  | none => exact ⟨_, fun w => rfl⟩
  | some v =>
      cases v with
      | scope s => exact ⟨_, fun w => rfl⟩
      | nilScope => rw [hv] at hctx; simp [scopeOk] at hctx
      | other => rw [hv] at hctx; simp [scopeOk] at hctx

theorem mapRevoke_exists (r : oauthProxy) {req : Request}
    (hctx : scopeOk req.ctx.val = true) (w2 : ResponseWriter) :
    ∃ w' c, (revokeProxy r w2 req).map (fun c0 => (w2, c0)) = .ok (w', c) := by
  obtain ⟨c, hc⟩ := revokeProxy_ok r w2 hctx
  exact ⟨w2, c, by rw [hc]; rfl⟩

/-- C9 (amended): no operation panics as long as the scope key holds
nothing or a non-nil `*RequestScope`; when the key is absent `revokeProxy`
synthesizes a default denied scope.  A typed-nil `*RequestScope` under the
scope key passes the type assertion and panics dereferencing nil (and a
value of another type fails the assertion: see the counterexample). -/
theorem c9_no_panic_welltyped :
    (∀ (r : oauthProxy) (w : ResponseWriter) (req : Request),
      scopeOk req.ctx.val = true →
      (∃ c, revokeProxy r w req = .ok c) ∧
      (∃ w' c, accessForbidden r w req = .ok (w', c)) ∧
      (∀ url : GoStr, ∃ w' c, redirectToURL r url w req = .ok (w', c)) ∧
      (∃ w' c, redirectToAuthorization r w req = .ok (w', c))) ∧
    (∀ (r : oauthProxy) (w : ResponseWriter) (req : Request),
      req.ctx.val = none →
      revokeProxy r w req = .ok ⟨some (.scope ⟨true⟩)⟩) ∧
    (∀ (r : oauthProxy) (w : ResponseWriter) (req : Request),
      req.ctx.val = some CtxVal.nilScope →
      revokeProxy r w req = .error GoPanic.nilDereference) := by
  refine ⟨?_, ?_, ?_⟩
  · intro r w req hctx
    refine ⟨revokeProxy_ok r w hctx, ?_, ?_, ?_⟩
    · unfold accessForbidden
      exact mapRevoke_exists r hctx _
    · intro url
      unfold redirectToURL
      exact mapRevoke_exists r hctx _
    · unfold redirectToAuthorization
      dsimp only []
      by_cases hb : r.config.NoRedirects = true
      · rw [if_pos hb]
        exact mapRevoke_exists r hctx _
      · rw [if_neg hb]
        by_cases hs : r.config.SkipTokenVerification = true
        · rw [if_pos hs]
          exact mapRevoke_exists r hctx _
        · rw [if_neg hs]
          obtain ⟨w1, c1, hred⟩ := mapRevoke_exists r hctx
            (httpRedirect w req (r.config.WithOAuthURI (authorizationURL ++
              (gs "?state=" ++ generateStateParam req.requestURI))) 307)
          have hred2 : redirectToURL r (r.config.WithOAuthURI
              (authorizationURL ++ (gs "?state=" ++
                generateStateParam req.requestURI))) w req = .ok (w1, c1) := hred
          rw [hred2]
          dsimp only []
          exact mapRevoke_exists r hctx w1
  · intro r w req hnone
    unfold revokeProxy
    rw [hnone]
  · intro r w req hnil
    unfold revokeProxy
    rw [hnil]

theorem cookieInFilter_iff (name : GoStr) (fs : List GoStr) :
    cookieInFilter name fs = true ↔ name ∈ fs := by
  induction fs with
  | nil => simp [cookieInFilter]
  | cons n ns ih =>
      by_cases h : name = n
      · simp [cookieInFilter, h]
      · have hbe : (name == n) = false := by
          simp [h]
        simp [cookieInFilter, hbe, ih, List.mem_cons, h]

/-- C7: `filterCookies` rebuilds the cookie jar pointwise — a cookie whose
name is in the filter list reappears with the value `"censored"`, every
other cookie reappears unchanged, first-appearance order is preserved, and
the returned error is `nil`. -/
theorem c7_filter_cookies (cookies : List Cookie) (filter : List GoStr) :
    (filterCookies cookies filter).1 = cookies.map (fun x =>
      if x.Name ∈ filter then { Name := x.Name, Value := gs "censored" }
      else x) ∧
    (filterCookies cookies filter).2 = none := by
  refine ⟨?_, rfl⟩
  unfold filterCookies
  dsimp only []
  induction cookies with
  | nil => rfl
  | cons x xs ih =>
      simp only [filterCookiesLoop, List.map_cons, ih]
      congr 1
      by_cases h : x.Name ∈ filter
      · rw [if_pos ((cookieInFilter_iff _ _).mpr h), if_pos h]
      · rw [if_neg ?_, if_neg h]
        intro hb
        exact h ((cookieInFilter_iff _ _).mp hb)

/-- C8: `getAccessCookieExpiration` returns the configured default when the
refresh token does not parse, and the time remaining until the identity's
`ExpiresAt` when it does. -/
theorem c8_access_cookie_expiration (r : oauthProxy)
    (parseToken : GoStr → Except GoErr (JWT × Identity)) (now : Int)
    (token : JWT) (refresh : GoStr) :
    (∀ e, parseToken refresh = .error e →
      getAccessCookieExpiration r parseToken now token refresh =
        r.config.AccessTokenDuration) ∧
    (∀ (j : JWT) (ident : Identity), parseToken refresh = .ok (j, ident) →
      getAccessCookieExpiration r parseToken now token refresh =
        ident.ExpiresAt - now) := by
  constructor
  · intro e he
    unfold getAccessCookieExpiration
    dsimp only []
    rw [he]
  · intro j ident hok
    unfold getAccessCookieExpiration
    dsimp only []
    rw [hok]

/-- A concrete configuration for witnesses: 30-minute access-token
duration (in nanoseconds), no custom forbidden page, OAuth base
`/oauth`. -/
def cfgEx : Config :=
  { NoRedirects := false
    SkipTokenVerification := false
    AccessTokenDuration := 1800000000000
    ForbiddenPage := gs ""
    Tags := []
    WithOAuthURI := fun p => gs "/oauth" ++ p }

/-- A concrete proxy whose renderer always fails (render failures are
absorbed). -/
def proxyEx : oauthProxy :=
  { config := cfgEx, render := fun _ _ => .error .templateError }

/-- A fresh response writer. -/
def wEx : ResponseWriter := { status := none, location := none, body := [] }

/-- A concrete request whose context carries no scope yet. -/
def reqEx : Request := { ctx := ⟨none⟩, requestURI := gs "/secret?x=1" }

/-- A concrete request whose context stores a non-`RequestScope` value
under the scope key. -/
def reqOtherEx : Request :=
  { ctx := ⟨some CtxVal.other⟩, requestURI := gs "/secret?x=1" }

/-- A concrete request whose context stores a typed-nil `*RequestScope`
under the scope key. -/
def reqNilScopeEx : Request :=
  { ctx := ⟨some CtxVal.nilScope⟩, requestURI := gs "/secret?x=1" }

/-- Counterexample to C9 as stated: a value of a foreign type under the
scope key makes the unchecked type assertion `sc.(*RequestScope)` panic,
and a typed-nil `*RequestScope` passes the assertion and panics
dereferencing nil at `scope.AccessDenied = true`; neither input is handled
by synthesizing a default scope. -/
theorem c9_counterexample :
    revokeProxy proxyEx wEx reqOtherEx = .error GoPanic.typeAssertion ∧
    revokeProxy proxyEx wEx reqNilScopeEx = .error GoPanic.nilDereference :=
  ⟨rfl, rfl⟩

/-- Witness for the amended C9 at a concrete scope-free request. -/
theorem c9_witness :
    revokeProxy proxyEx wEx reqEx =
      .ok ⟨some (.scope ⟨true⟩)⟩ :=
  c9_no_panic_welltyped.2.1 proxyEx wEx reqEx rfl

/-- Witness for C2 at a concrete misconfigured proxy. -/
theorem c2_witness :
    ∃ w' c, redirectToAuthorization
        { proxyEx with config := { cfgEx with SkipTokenVerification := true } }
        wEx reqEx = .ok (w', c) ∧
      w'.status = some 403 ∧ w'.location = wEx.location ∧ c.denied = true :=
  c2_skip_verification_forbidden
    { proxyEx with config := { cfgEx with SkipTokenVerification := true } }
    wEx reqEx rfl rfl rfl (by decide)

/-- Witness for C4 at a concrete no-redirect proxy. -/
theorem c4_witness :
    ∃ w' c, redirectToAuthorization
        { proxyEx with config := { cfgEx with NoRedirects := true } }
        wEx reqEx = .ok (w', c) ∧
      w'.status = some 401 ∧ w'.location = wEx.location ∧ c.denied = true :=
  c4_noredirects_unauthorized
    { proxyEx with config := { cfgEx with NoRedirects := true } }
    wEx reqEx rfl rfl (by decide)

/-- Witness for C5 at the default concrete proxy and the request URI
`/secret?x=1`. -/
theorem c5_witness :
    ∃ w' c, redirectToAuthorization proxyEx wEx reqEx = .ok (w', c) ∧
      w'.status = some 307 ∧
      w'.location = some (proxyEx.config.WithOAuthURI (authorizationURL ++
        (gs "?state=" ++ generateStateParam reqEx.requestURI))) ∧
      c.denied = true :=
  c5_normal_redirect proxyEx wEx reqEx rfl rfl rfl (by decide)

/-- Witness for C10 at a concrete proxy with both flags set. -/
theorem c10_witness :
    (∃ w' c, redirectToAuthorization
        { proxyEx with config :=
          { cfgEx with NoRedirects := true, SkipTokenVerification := true } }
        wEx reqEx = .ok (w', c) ∧
      w'.status = some 401 ∧ w'.status ≠ some 403) ∧
    (∀ u : GoStr, redirectToAuthorization
        { proxyEx with config :=
          { cfgEx with NoRedirects := true, SkipTokenVerification := true } }
        wEx { reqEx with requestURI := u } =
      redirectToAuthorization
        { proxyEx with config :=
          { cfgEx with NoRedirects := true, SkipTokenVerification := true } }
        wEx reqEx) :=
  c10_noredirects_precedence
    { proxyEx with config :=
      { cfgEx with NoRedirects := true, SkipTokenVerification := true } }
    wEx reqEx rfl rfl rfl (by decide)

/-- Witness for C3 at a concrete request: `revokeProxy` returns a denied
scope. -/
theorem c3_witness :
    Context.denied ⟨some (.scope ⟨true⟩)⟩ = true :=
  c3_dispositions_deny.1 proxyEx wEx reqEx ⟨some (.scope ⟨true⟩)⟩ rfl

/-- Witness for C8 at a concrete always-failing and a concrete succeeding
parse oracle. -/
theorem c8_witness :
    getAccessCookieExpiration proxyEx (fun _ => .error .tokenParseError) 0
        ⟨gs ""⟩ (gs "bad") = proxyEx.config.AccessTokenDuration ∧
    getAccessCookieExpiration proxyEx (fun _ => .ok (⟨gs ""⟩, ⟨7200⟩)) 100
        ⟨gs ""⟩ (gs "tok") = 7200 - 100 :=
  ⟨(c8_access_cookie_expiration proxyEx (fun _ => .error .tokenParseError) 0
      ⟨gs ""⟩ (gs "bad")).1 .tokenParseError rfl,
   (c8_access_cookie_expiration proxyEx (fun _ => .ok (⟨gs ""⟩, ⟨7200⟩)) 100
      ⟨gs ""⟩ (gs "tok")).2 ⟨gs ""⟩ ⟨7200⟩ rfl⟩
